import Mathlib

/-!
Verification of the topology-optimization driver (`src/solver.py`) and the
design parser (`designs/design_parser.py`) of the `topomax` repository.

The solver's fields live on a DG-0 finite-element space: a field is a list of
per-cell values, and `df.assemble(f * df.dx)` is the sum of per-cell value
times cell area.  We embed fields as `List ℝ` together with a list of cell
areas, floating-point numbers as real numbers, and a raised Python exception
as `Except.error`.  The physical model (`Problem`) is an external collaborator
and is embedded as an oracle supplying objective values and gradients.
-/

namespace Topomax

/-- Sigmoid function, from `expit` in `src/solver.py`. -/
noncomputable def expit (x : ℝ) : ℝ := 1 / (1 + Real.exp (-x))

/-- Derivative of the sigmoid function, from `expit_diff` in `src/solver.py`. -/
noncomputable def expit_diff (x : ℝ) : ℝ := expit x * (1 - expit x)

/-- Inverse sigmoid function, from `logit` in `src/solver.py`. -/
noncomputable def logit (x : ℝ) : ℝ := Real.log (x / (1 - x))

/-- Integral of a DG-0 field over the mesh: `df.assemble(f * df.dx)` is the
sum over cells of the cell value times the cell area. -/
noncomputable def integ (areas v : List ℝ) : ℝ :=
  (List.zipWith (fun a x => a * x) areas v).sum

theorem expit_pos (x : ℝ) : 0 < expit x := by
  have h := Real.exp_pos (-x)
  unfold expit
  positivity

theorem expit_lt_one (x : ℝ) : expit x < 1 := by
  have h := Real.exp_pos (-x)
  unfold expit
  rw [div_lt_one (by linarith)]
  linarith

theorem expit_diff_pos (x : ℝ) : 0 < expit_diff x := by
  have h1 := expit_pos x
  have h2 := expit_lt_one x
  unfold expit_diff
  nlinarith

theorem expit_zero : expit 0 = 1 / 2 := by
  unfold expit
  rw [neg_zero, Real.exp_zero]
  norm_num

theorem expit_diff_zero : expit_diff 0 = 1 / 4 := by
  unfold expit_diff
  rw [expit_zero]
  norm_num

theorem logit_half : logit (1 / 2) = 0 := by
  unfold logit
  norm_num

/-! ## The volume projector (`Solver.project` in `src/solver.py`) -/

/-- The message of the `ValueError` raised by `Solver.project` when the
integrated sigmoid derivative is exactly zero. -/
def zeroDerivMsg : String := "Got derivative equal to zero while projecting psi"

/-- Inputs of one projection call: the cell areas of the mesh, the latent
field `half_step`, and the target `volume`. -/
structure NewtonEnv where
  areas : List ℝ
  half_step : List ℝ
  volume : ℝ

/-- Value `error = df.assemble(expit(half_step + c) * df.dx) - volume`
computed inside the Newton loop of `Solver.project`. -/
noncomputable def newtonError (e : NewtonEnv) (c : ℝ) : ℝ :=
  integ e.areas (e.half_step.map (fun x => expit (x + c))) - e.volume

/-- Value `derivative = df.assemble(expit_diff(half_step + c) * df.dx)`
computed inside the Newton loop of `Solver.project`. -/
noncomputable def newtonDeriv (e : NewtonEnv) (c : ℝ) : ℝ :=
  integ e.areas (e.half_step.map (fun x => expit_diff (x + c)))

/-- The Newton loop of `Solver.project`: `for _ in range(max_iterations)` with
the scalar iterate `c`.  When the fuel runs out the Python for-else branch
prints a warning and the function returns the current `c`; a zero derivative
raises `ValueError`; an update smaller than `1e-12` breaks out of the loop. -/
noncomputable def newtonLoop (e : NewtonEnv) : ℕ → ℝ → Except String ℝ
  | 0, c => .ok c
  | fuel + 1, c =>
    let error := newtonError e c
    let derivative := newtonDeriv e c
    if derivative = 0 then .error zeroDerivMsg
    else
      let ns := error / derivative
      if |ns| < 1e-12 then .ok (c - ns) else newtonLoop e fuel (c - ns)

/-- Scalar Newton iterates of `Solver.project`, starting from `c = 0`.
`newtonIter e n` is the value of `c` after `n` updates `c ← c - error/derivative`
(junk values are produced past a zero derivative, where the code raises). -/
noncomputable def newtonIter (e : NewtonEnv) : ℕ → ℝ
  | 0 => 0
  | n + 1 =>
    newtonIter e n - newtonError e (newtonIter e n) / newtonDeriv e (newtonIter e n)

/-- Number of Newton-loop iterations actually executed by `Solver.project`
when given `fuel` as the iteration cap. -/
noncomputable def newtonSteps (e : NewtonEnv) : ℕ → ℝ → ℕ
  | 0, _ => 0
  | fuel + 1, c =>
    let derivative := newtonDeriv e c
    if derivative = 0 then 1
    else
      let ns := newtonError e c / derivative
      if |ns| < 1e-12 then 1 else 1 + newtonSteps e fuel (c - ns)

/-- Projection `Solver.project`: solve `∫ expit(half_step + c) dx = volume`
for `c` by Newton's method (cap `max_iterations = 10`, starting at `c = 0`)
and return `half_step + c`. -/
noncomputable def project (areas half_step : List ℝ) (volume : ℝ) :
    Except String (List ℝ) :=
  (newtonLoop ⟨areas, half_step, volume⟩ 10 0).map
    (fun c => half_step.map (fun x => x + c))

/-! ## The mirror-descent driver (`Solver.solve` in `src/solver.py`) -/

/-- Step-size policy `Solver.step_size`: `25 * (k + 1)`. -/
noncomputable def step_size (k : ℕ) : ℝ := 25 * (k + 1)

/-- Constant `ntol = 1e-5` of `Solver.solve`. -/
noncomputable def ntol : ℝ := 1e-5

/-- Constant `itol = 1e-2` of `Solver.solve`. -/
noncomputable def itol : ℝ := 1e-2

/-- One mirror-descent step (`Solver.step`): latent-space gradient descent
`half_step = previous_psi - step_size * objective_gradient` followed by the
volume projection. -/
noncomputable def stepFn (areas grad previous_psi : List ℝ) (ss volume : ℝ) :
    Except String (List ℝ) :=
  let half_step := List.zipWith (fun p g => p - ss * g) previous_psi grad
  project areas half_step volume

/-- The external physical model (`Problem`), embedded as an oracle.  The
objective is indexed by the call number (the collaborator is stateful and may
answer differently on every call); the gradient is evaluated at the current
density per the collaborator contract. -/
structure Oracle where
  objective : ℕ → List ℝ → ℝ
  gradient : ℕ → List ℝ → List ℝ

/-- Static data of one `Solver` instance: the mesh cell areas, the number of
cells, and the design parameters `width`, `height`, `fraction`. -/
structure DriverEnv where
  areas : List ℝ
  n : ℕ
  fraction : ℝ
  width : ℝ
  height : ℝ
  oracle : Oracle

/-- The target volume `self.volume = self.width * self.height * volume_fraction`. -/
noncomputable def DriverEnv.volume (env : DriverEnv) : ℝ :=
  env.width * env.height * env.fraction

/-- Mutable state of the `Solver.solve` loop.  `difference` and
`objective_difference` start as placeholders (`float("Infinity")` / `None` in
the source) that are only ever printed before being recomputed, so they are
embedded as `Option ℝ` with `none` as the initial value. -/
structure LoopState where
  psi : List ℝ
  rho : List ℝ
  objective : ℝ
  difference : Option ℝ
  objective_difference : Option ℝ

/-- Terminal condition of `Solver.solve`: the three `EXIT:` messages. -/
inductive Status
  | converged
  | diverged
  | exhausted
deriving DecidableEq

/-- Result of one iteration of the `for k in range(500)` loop: either a break
with a terminal status or a fall-through to the next iteration. -/
inductive StepResult
  | stop (st : Status) (s : LoopState)
  | next (s : LoopState)

/-- One record written by `Solver.save_rho`: the density values, the current
objective, and the iteration index embedded in the file name. -/
structure Snapshot where
  rho : List ℝ
  objective : ℝ
  k : ℕ

/-- Observable side effects accumulated by the loop: the snapshots written so
far and the trace of every density field held by the solver (the initial one
and the one after every update). -/
structure RunAcc where
  snapshots : List Snapshot
  trace : List (List ℝ)

/-- Final result of `Solver.solve`: terminal status, the exit index `k + 1`
used by the final `save_rho`, the final loop state, and the side effects. -/
structure SolveResult where
  status : Status
  exitK : ℕ
  final : LoopState
  snapshots : List Snapshot
  trace : List (List ℝ)

/-- New latent field of iteration `k`: `psi = self.step(previous_psi, step_size(k))`. -/
noncomputable def bodyPsi (env : DriverEnv) (k : ℕ) (s : LoopState) :
    Except String (List ℝ) :=
  stepFn env.areas (env.oracle.gradient k s.rho) s.psi (step_size k) env.volume

/-- New density of an iteration: `self.rho.vector()[:] = expit(psi)`. -/
noncomputable def bodyRho (psi2 : List ℝ) : List ℝ := psi2.map expit

/-- Objective recomputed after the step of iteration `k`. -/
noncomputable def bodyObj (env : DriverEnv) (k : ℕ) (psi2 : List ℝ) : ℝ :=
  env.oracle.objective (k + 1) (bodyRho psi2)

/-- Value `objective_difference = previous_objective - objective` of iteration `k`. -/
noncomputable def bodyObjDiff (env : DriverEnv) (k : ℕ) (s : LoopState)
    (psi2 : List ℝ) : ℝ :=
  s.objective - bodyObj env k psi2

/-- L2 density delta of iteration `k`:
`difference = np.sqrt(df.assemble((rho - previous_rho)**2 * df.dx))`. -/
noncomputable def bodyDiff (env : DriverEnv) (s : LoopState) (psi2 : List ℝ) : ℝ :=
  Real.sqrt
    (integ env.areas
      (List.zipWith (fun a b => (a - b) ^ 2) (bodyRho psi2) (s.psi.map expit)))

/-- Body of one iteration of the `for k in range(500)` loop of `Solver.solve`:
take a step, recompute the objective, break as `diverged` when the objective
increased, otherwise compute the density delta and break as `converged` when
it is below `min(step_size(k) * ntol, itol)`. -/
noncomputable def loopBody (env : DriverEnv) (k : ℕ) (s : LoopState) :
    Except String StepResult :=
  match bodyPsi env k s with
  | .error e => .error e
  | .ok psi2 =>
    let objDiff := bodyObjDiff env k s psi2
    if objDiff < 0 then
      .ok (.stop .diverged
        ⟨psi2, bodyRho psi2, bodyObj env k psi2, s.difference, some objDiff⟩)
    else
      let d := bodyDiff env s psi2
      let s2 : LoopState :=
        ⟨psi2, bodyRho psi2, bodyObj env k psi2, some d, some objDiff⟩
      if d < min (step_size k * ntol) itol then .ok (.stop .converged s2)
      else .ok (.next s2)

/-- The `for k in range(500)` loop of `Solver.solve`, with `fuel` remaining
iterations (`fuel + k = 500` at entry).  Snapshots are written every tenth
iteration; when the range is exhausted the Python for-else branch reports
non-convergence and `k` already equals the final save index. -/
noncomputable def solveLoop (env : DriverEnv) :
    ℕ → ℕ → LoopState → RunAcc → RunAcc × Except String (Status × ℕ × LoopState)
  | 0, k, s, acc => (acc, .ok (.exhausted, k, s))
  | fuel + 1, k, s, acc =>
    let acc1 : RunAcc :=
      if k % 10 = 0 then ⟨acc.snapshots ++ [⟨s.rho, s.objective, k⟩], acc.trace⟩
      else acc
    match loopBody env k s with
    | .error e => (acc1, .error e)
    | .ok (.stop st s2) =>
      (⟨acc1.snapshots, acc1.trace ++ [s2.rho]⟩, .ok (st, k + 1, s2))
    | .ok (.next s2) =>
      solveLoop env fuel (k + 1) s2 ⟨acc1.snapshots, acc1.trace ++ [s2.rho]⟩

/-- Initial loop state of `Solver.solve`: uniform density at the volume
fraction, `psi = logit(rho)`, and the objective evaluated once before the loop. -/
noncomputable def initState (env : DriverEnv) : LoopState :=
  let rho0 := List.replicate env.n env.fraction
  ⟨rho0.map logit, rho0, env.oracle.objective 0 rho0, none, none⟩

/-- The whole loop of `Solver.solve`, returning the accumulated side effects
together with the outcome (also when an exception escapes the loop). -/
noncomputable def solveRaw (env : DriverEnv) :
    RunAcc × Except String (Status × ℕ × LoopState) :=
  solveLoop env 500 0 (initState env) ⟨[], [List.replicate env.n env.fraction]⟩

/-- Epilogue of `Solver.solve`: the final `save_rho(self.rho, objective, k + 1)`.  -/
noncomputable def finalize (acc : RunAcc) (st : Status) (kexit : ℕ)
    (s : LoopState) : SolveResult :=
  ⟨st, kexit, s, acc.snapshots ++ [⟨s.rho, s.objective, kexit⟩], acc.trace⟩

/-- `Solver.solve`: run the loop, then write one final snapshot; a
`ValueError` escaping the projector aborts the call. -/
noncomputable def solve (env : DriverEnv) : Except String SolveResult :=
  match solveRaw env with
  | (_, .error e) => .error e
  | (acc, .ok (st, kexit, s)) => .ok (finalize acc st kexit s)

/-! ## The design parser (`designs/design_parser.py`)

A design JSON file is embedded as an already-deserialized record
(`DesignSpec`); `exit(1)` and a raised `ValueError` are both embedded as
`Except.error` (either way the run never proceeds to optimization). -/

/-- The four legal boundary sides (`Side` enum). -/
inductive Side
  | left
  | right
  | top
  | bottom
deriving DecidableEq

/-- Error message of `Side.from_string` for an unknown side name. -/
def badSideMsg : String := "Malformed side"

/-- Error message of `to_tuple` for a list of the wrong length. -/
def badTupleMsg : String := "Malformed list"

/-- Error message of `parse_design` for an unknown objective. -/
def badObjectiveMsg : String := "Got design with malformed objective"

/-- Error message of `get_fluid_arguments` for an unbalanced total flow. -/
def badFlowMsg : String := "Illegal design: total flow is not 0"

/-- Error message of `get_fluid_arguments` for a `maximize_flow` objective
without a `max_region`. -/
def noMaxRegionMsg : String := "Got maximize flow objective with no max region"

/-- Parse of one side name, `Side.from_string`. -/
def sideFromString (s : String) : Except String Side :=
  if s = "left" then .ok .left
  else if s = "right" then .ok .right
  else if s = "top" then .ok .top
  else if s = "bottom" then .ok .bottom
  else .error badSideMsg

/-- One entry of the `flows` list of a fluid design file. -/
structure FlowSpec where
  side : String
  center : ℝ
  flowLength : ℝ
  rate : ℝ

/-- A parsed `Flow` record. -/
structure Flow where
  side : Side
  center : ℝ
  flowLength : ℝ
  rate : ℝ

/-- The `max_region` entry of a fluid design file / the parsed `Region`. -/
structure RegionSpec where
  center : ℝ × ℝ
  size : ℝ × ℝ

/-- The `force_region` entry of an elasticity design file. -/
structure ForceRegionSpec where
  radius : ℝ
  center : List ℝ
  value : List ℝ

/-- One entry of the `tractions` list of an elasticity design file. -/
structure TractionSpec where
  side : String
  center : ℝ
  tractionLength : ℝ
  value : List ℝ

/-- A deserialized design file, covering the fields read by `parse_design`,
`get_fluid_arguments` and `get_elasticity_arguments`. -/
structure DesignSpec where
  problem : String
  objective : String
  width : ℝ
  height : ℝ
  fraction : ℝ
  flows : List FlowSpec
  no_slip : List String
  zero_pressure : List String
  max_region : Option RegionSpec
  force_region : Option ForceRegionSpec
  fixed_sides : List String
  tractions : List TractionSpec

/-- The `SolverParameters` record produced by `parse_design`. -/
structure SolverParameters where
  problem : String
  objective : String
  width : ℝ
  height : ℝ
  fraction : ℝ

/-- Parsed elasticity extra data. -/
structure ElasticityArgs where
  force_region : Option (ℝ × (ℝ × ℝ) × (ℝ × ℝ))
  fixed_sides : List Side
  tractions : List (Side × ℝ × ℝ × (ℝ × ℝ))

/-- Parsed fluid extra data. -/
structure FluidArgs where
  flows : List Flow
  no_slip : Option (List Side)
  zero_pressure : Option (List Side)
  max_region : Option RegionSpec

/-- Everything `parse_design` returns. -/
inductive ParseResult
  | elasticity (parameters : SolverParameters) (args : ElasticityArgs)
  | fluid (parameters : SolverParameters) (args : FluidArgs)

/-- `to_tuple(ray, 2)`: check the length and convert to a pair. -/
def toTuple2 (ray : List ℝ) : Except String (ℝ × ℝ) :=
  match ray with
  | [a, b] => .ok (a, b)
  | _ => .error badTupleMsg

/-- Parse a list of side names, raising on the first malformed one. -/
def parseSides : List String → Except String (List Side)
  | [] => .ok []
  | s :: rest =>
    match sideFromString s with
    | .error e => .error e
    | .ok sd =>
      match parseSides rest with
      | .error e => .error e
      | .ok sds => .ok (sd :: sds)

/-- Parse the `flows` list of a fluid design, raising on the first malformed
side. -/
def parseFlows : List FlowSpec → Except String (List Flow)
  | [] => .ok []
  | f :: rest =>
    match sideFromString f.side with
    | .error e => .error e
    | .ok s =>
      match parseFlows rest with
      | .error e => .error e
      | .ok flows => .ok (Flow.mk s f.center f.flowLength f.rate :: flows)

/-- Parse the `tractions` list of an elasticity design. -/
def parseTractions : List TractionSpec → Except String (List (Side × ℝ × ℝ × (ℝ × ℝ)))
  | [] => .ok []
  | t :: rest =>
    match sideFromString t.side with
    | .error e => .error e
    | .ok s =>
      match toTuple2 t.value with
      | .error e => .error e
      | .ok tv =>
        match parseTractions rest with
        | .error e => .error e
        | .ok ts => .ok ((s, t.center, t.tractionLength, tv) :: ts)

/-- Total flow `sum of rate * length` over a parsed flow list, as computed by
`get_fluid_arguments` when no zero-pressure boundary is declared. -/
noncomputable def totalFlow (flows : List Flow) : ℝ :=
  (flows.map (fun f => f.rate * f.flowLength)).sum

/-- Net flow of the raw design (same sum over the unparsed entries). -/
noncomputable def netFlow (d : DesignSpec) : ℝ :=
  (d.flows.map (fun f => f.rate * f.flowLength)).sum

/-- `get_elasticity_arguments`: parse the optional force region (checking the
2-tuples), then the fixed sides, then the tractions. -/
def getElasticityArguments (d : DesignSpec) : Except String ElasticityArgs :=
  match (match d.force_region with
         | none => .ok none
         | some fr =>
           match toTuple2 fr.center with
           | .error e => .error e
           | .ok c =>
             match toTuple2 fr.value with
             | .error e => .error e
             | .ok v => .ok (some (fr.radius, c, v)) :
           Except String (Option (ℝ × (ℝ × ℝ) × (ℝ × ℝ)))) with
  | .error e => .error e
  | .ok freg =>
    match parseSides d.fixed_sides with
    | .error e => .error e
    | .ok fs =>
      match parseTractions d.tractions with
      | .error e => .error e
      | .ok ts => .ok ⟨freg, fs, ts⟩

/-- One optional side list (`no_slip` / `zero_pressure`): a falsy (empty)
entry stays `None`, a nonempty one is parsed. -/
def parseOptSides (l : List String) : Except String (Option (List Side)) :=
  if l.isEmpty then .ok none
  else (parseSides l).map some

/-- `get_fluid_arguments`: parse the flows, validate the total flow when no
zero-pressure boundary is declared, parse the optional side lists, and reject
a missing `max_region` under a `maximize_flow` objective. -/
noncomputable def getFluidArguments (d : DesignSpec) : Except String FluidArgs :=
  match parseFlows d.flows with
  | .error e => .error e
  | .ok flows =>
    if d.zero_pressure.length = 0 ∧ 1e-14 < |totalFlow flows| then .error badFlowMsg
    else
      match parseOptSides d.no_slip with
      | .error e => .error e
      | .ok ns =>
        match parseOptSides d.zero_pressure with
        | .error e => .error e
        | .ok zp =>
          match d.max_region with
          | some r => .ok ⟨flows, ns, zp, some r⟩
          | none =>
            if d.objective = "maximize_flow" then .error noMaxRegionMsg
            else .ok ⟨flows, ns, zp, none⟩

/-- The legal objective names of `parse_design`. -/
def legalObjectives : List String :=
  ["minimize_power", "maximize_flow", "minimize_compliance"]

/-- `parse_design`: reject unknown objectives, then dispatch on the problem
kind. -/
noncomputable def parseDesign (d : DesignSpec) : Except String ParseResult :=
  if d.objective ∈ legalObjectives then
    let parameters : SolverParameters :=
      ⟨d.problem, d.objective, d.width, d.height, d.fraction⟩
    if d.problem = "elasticity" then
      (getElasticityArguments d).map (fun ea => .elasticity parameters ea)
    else
      (getFluidArguments d).map (fun fa => .fluid parameters fa)
  else .error badObjectiveMsg

/-! ## Helper lemmas -/

theorem getLast_append_single {α : Type} (l : List α) (a : α) :
    (l ++ [a]).getLast? = some a := by
  rw [List.getLast?_append_cons]
  rfl

/-- Unfolding of one Newton-loop iteration that breaks out with a small update. -/
theorem newtonLoop_break (e : NewtonEnv) (fuel : ℕ) (c : ℝ)
    (hd : newtonDeriv e c ≠ 0)
    (hs : |newtonError e c / newtonDeriv e c| < 1e-12) :
    newtonLoop e (fuel + 1) c = .ok (c - newtonError e c / newtonDeriv e c) := by
  rw [newtonLoop]
  simp only [if_neg hd, if_pos hs]

/-- Unfolding of the loop body when the projection succeeds. -/
theorem loopBody_ok (env : DriverEnv) (k : ℕ) (s : LoopState) (psi2 : List ℝ)
    (hok : bodyPsi env k s = .ok psi2) :
    loopBody env k s =
      if bodyObjDiff env k s psi2 < 0 then
        .ok (.stop .diverged ⟨psi2, bodyRho psi2, bodyObj env k psi2, s.difference,
          some (bodyObjDiff env k s psi2)⟩)
      else if bodyDiff env s psi2 < min (step_size k * ntol) itol then
        .ok (.stop .converged ⟨psi2, bodyRho psi2, bodyObj env k psi2,
          some (bodyDiff env s psi2), some (bodyObjDiff env k s psi2)⟩)
      else
        .ok (.next ⟨psi2, bodyRho psi2, bodyObj env k psi2,
          some (bodyDiff env s psi2), some (bodyObjDiff env k s psi2)⟩) := by
  unfold loopBody
  rw [hok]

/-- Unfolding of the loop body when the projection raises. -/
theorem loopBody_err (env : DriverEnv) (k : ℕ) (s : LoopState) (e : String)
    (herr : bodyPsi env k s = .error e) :
    loopBody env k s = .error e := by
  unfold loopBody
  rw [herr]

/-- C7: the step-size policy is `step_size(k) = 25 * (k + 1)` (so the base
rate is `25`); it is strictly increasing in `k` and equals the base rate at
`k = 0`. -/
theorem C7_step_size_policy :
    (∀ k, step_size k = 25 * (k + 1)) ∧ StrictMono step_size ∧ step_size 0 = 25 := by
  refine ⟨fun k => rfl, ?_, by norm_num [step_size]⟩
  intro a b hab
  unfold step_size
  have h : (a : ℝ) < b := by exact_mod_cast hab
  nlinarith

/-- C4: if the integrated sigmoid derivative is exactly zero at any Newton
iterate, the projector raises the degenerate-derivative `ValueError`
immediately (no retry, no value returned); the error propagates out of
`Solver.project`, and any loop-body error aborts the driver loop. -/
theorem C4_degenerate_derivative :
    (∀ (e : NewtonEnv) (fuel : ℕ) (c : ℝ), newtonDeriv e c = 0 →
      newtonLoop e (fuel + 1) c = .error zeroDerivMsg) ∧
    (∀ (areas hs : List ℝ) (V : ℝ), newtonDeriv ⟨areas, hs, V⟩ 0 = 0 →
      project areas hs V = .error zeroDerivMsg) ∧
    (∀ (env : DriverEnv) (fuel k : ℕ) (s : LoopState) (acc : RunAcc) (e : String),
      loopBody env k s = .error e →
      (solveLoop env (fuel + 1) k s acc).2 = .error e) := by
  have h1 : ∀ (e : NewtonEnv) (fuel : ℕ) (c : ℝ), newtonDeriv e c = 0 →
      newtonLoop e (fuel + 1) c = .error zeroDerivMsg := by
    intro e fuel c hd
    rw [newtonLoop]
    simp only [if_pos hd]
  refine ⟨h1, ?_, ?_⟩
  · intro areas hs V hd
    unfold project
    rw [h1 ⟨areas, hs, V⟩ 9 0 hd]
    rfl
  · intro env fuel k s acc e herr
    rw [solveLoop]
    simp only [herr]

/-- C2: given the projection of iteration `k` succeeds and the iteration does
not stop as diverged, the loop stops in the converged state exactly when the
L2 density delta of that iteration is strictly below
`min(step_size(k) * 1e-5, 1e-2)`. -/
theorem C2_convergence_rule (env : DriverEnv) (k : ℕ) (s : LoopState)
    (psi2 : List ℝ) (hok : bodyPsi env k s = .ok psi2)
    (hnd : 0 ≤ bodyObjDiff env k s psi2) :
    (∃ s2, loopBody env k s = .ok (.stop .converged s2)) ↔
      bodyDiff env s psi2 < min (step_size k * 1e-5) 1e-2 := by
  have hlt : ¬ bodyObjDiff env k s psi2 < 0 := not_lt.mpr hnd
  rw [loopBody_ok env k s psi2 hok, if_neg hlt]
  have htol : min (step_size k * ntol) itol = min (step_size k * 1e-5) 1e-2 := by
    rw [ntol, itol]
  constructor
  · rintro ⟨s2, hs2⟩
    by_contra hd
    rw [← htol] at hd
    rw [if_neg hd] at hs2
    exact StepResult.noConfusion (Except.ok.inj hs2)
  · intro hd
    rw [← htol] at hd
    rw [if_pos hd]
    exact ⟨_, rfl⟩

/-- C10: when the recomputed objective exceeds the previous one, the loop body
returns the diverged stop with the post-step density and objective, and the
`difference` slot still holds its pre-iteration value (the density delta is
never computed on this path, so divergence takes precedence over convergence);
the retained objective is the increased one. -/
theorem C10_no_rollback (env : DriverEnv) (k : ℕ) (s : LoopState)
    (psi2 : List ℝ) (hok : bodyPsi env k s = .ok psi2)
    (hdiv : bodyObjDiff env k s psi2 < 0) :
    loopBody env k s =
      .ok (.stop .diverged ⟨psi2, bodyRho psi2, bodyObj env k psi2, s.difference,
        some (bodyObjDiff env k s psi2)⟩) ∧
    s.objective < bodyObj env k psi2 := by
  refine ⟨by rw [loopBody_ok env k s psi2 hok, if_pos hdiv], ?_⟩
  unfold bodyObjDiff at hdiv
  linarith

/-- C3: when a step increases the objective, the driver loop returns cleanly
with the diverged status (no error), and the final snapshot written by
`Solver.solve` records the post-step density and the increased objective at
index `k + 1`. -/
theorem C3_divergence_terminal (env : DriverEnv) (fuel k : ℕ) (s : LoopState)
    (acc : RunAcc) (psi2 : List ℝ) (hok : bodyPsi env k s = .ok psi2)
    (hdiv : bodyObjDiff env k s psi2 < 0) :
    ∃ acc2 s2,
      solveLoop env (fuel + 1) k s acc = (acc2, .ok (.diverged, k + 1, s2)) ∧
      s2.rho = bodyRho psi2 ∧ s2.objective = bodyObj env k psi2 ∧
      (finalize acc2 .diverged (k + 1) s2).snapshots.getLast? =
        some ⟨bodyRho psi2, bodyObj env k psi2, k + 1⟩ := by
  have hb := loopBody_ok env k s psi2 hok
  rw [if_pos hdiv] at hb
  set acc1 : RunAcc :=
    (if k % 10 = 0 then
      RunAcc.mk (acc.snapshots ++ [⟨s.rho, s.objective, k⟩]) acc.trace
    else acc) with hacc1
  refine ⟨⟨acc1.snapshots, acc1.trace ++ [bodyRho psi2]⟩,
    ⟨psi2, bodyRho psi2, bodyObj env k psi2, s.difference,
      some (bodyObjDiff env k s psi2)⟩, ?_, rfl, rfl, ?_⟩
  · rw [solveLoop]
    simp only [hb, hacc1]
  · unfold finalize
    exact getLast_append_single _ _

/-! ## Termination (C6) -/

theorem integ_nonneg (A V : List ℝ) (hA : ∀ a ∈ A, 0 ≤ a) (hV : ∀ v ∈ V, 0 ≤ v) :
    0 ≤ integ A V := by
  induction A generalizing V with
  | nil => simp [integ]
  | cons a as ih =>
    cases V with
    | nil => simp [integ]
    | cons v vs =>
      have h1 : 0 ≤ a * v :=
        mul_nonneg (hA a (by simp)) (hV v (by simp))
      have h2 : 0 ≤ integ as vs :=
        ih vs (fun x hx => hA x (by simp [hx])) (fun x hx => hV x (by simp [hx]))
      unfold integ at h2 ⊢
      rw [List.zipWith_cons_cons, List.sum_cons]
      linarith

theorem integ_pos (A V : List ℝ) (hA : ∀ a ∈ A, 0 < a) (hV : ∀ v ∈ V, 0 < v)
    (hA0 : A ≠ []) (hV0 : V ≠ []) : 0 < integ A V := by
  cases A with
  | nil => exact absurd rfl hA0
  | cons a as =>
    cases V with
    | nil => exact absurd rfl hV0
    | cons v vs =>
      have h1 : 0 < a * v := mul_pos (hA a (by simp)) (hV v (by simp))
      have h2 : 0 ≤ integ as vs := by
        refine integ_nonneg as vs (fun x hx => le_of_lt (hA x (by simp [hx])))
          (fun x hx => le_of_lt (hV x (by simp [hx])))
      unfold integ at h2 ⊢
      rw [List.zipWith_cons_cons, List.sum_cons]
      linarith

theorem newtonDeriv_pos (e : NewtonEnv) (c : ℝ) (hA : ∀ a ∈ e.areas, 0 < a)
    (hA0 : e.areas ≠ []) (hh : e.half_step ≠ []) : 0 < newtonDeriv e c := by
  unfold newtonDeriv
  refine integ_pos _ _ hA ?_ hA0 ?_
  · intro v hv
    obtain ⟨x, _, hx⟩ := List.mem_map.mp hv
    rw [← hx]
    exact expit_diff_pos _
  · simpa using hh

theorem newtonLoop_ok (e : NewtonEnv) (hA : ∀ a ∈ e.areas, 0 < a)
    (hA0 : e.areas ≠ []) (hh : e.half_step ≠ []) :
    ∀ fuel c, ∃ r, newtonLoop e fuel c = .ok r := by
  intro fuel
  induction fuel with
  | zero => exact fun c => ⟨c, rfl⟩
  | succ n ih =>
    intro c
    have hd : newtonDeriv e c ≠ 0 := ne_of_gt (newtonDeriv_pos e c hA hA0 hh)
    rw [newtonLoop]
    simp only [if_neg hd]
    by_cases hs : |newtonError e c / newtonDeriv e c| < 1e-12
    · exact ⟨_, by rw [if_pos hs]⟩
    · obtain ⟨r, hr⟩ := ih (c - newtonError e c / newtonDeriv e c)
      exact ⟨r, by rw [if_neg hs]; exact hr⟩

theorem project_ok (areas hs : List ℝ) (V : ℝ) (hA : ∀ a ∈ areas, 0 < a)
    (hA0 : areas ≠ []) (hh : hs ≠ []) :
    ∃ c, project areas hs V = .ok (hs.map (fun x => x + c)) := by
  obtain ⟨c, hc⟩ := newtonLoop_ok ⟨areas, hs, V⟩ hA hA0 hh 10 0
  exact ⟨c, by unfold project; rw [hc]; rfl⟩

theorem zipWith_ne_nil {α : Type} (f : α → α → α) (l1 l2 : List α)
    (h1 : l1 ≠ []) (h2 : l2 ≠ []) : List.zipWith f l1 l2 ≠ [] := by
  cases l1 with
  | nil => exact absurd rfl h1
  | cons a as =>
    cases l2 with
    | nil => exact absurd rfl h2
    | cons b bs => simp

theorem bodyPsi_ok (env : DriverEnv) (k : ℕ) (s : LoopState)
    (hA : ∀ a ∈ env.areas, 0 < a) (hA0 : env.areas ≠ []) (hpsi : s.psi ≠ [])
    (hg : env.oracle.gradient k s.rho ≠ []) :
    ∃ psi2, bodyPsi env k s = .ok psi2 ∧ psi2 ≠ [] := by
  unfold bodyPsi stepFn
  have hh : List.zipWith (fun p g => p - step_size k * g) s.psi
      (env.oracle.gradient k s.rho) ≠ [] :=
    zipWith_ne_nil _ _ _ hpsi hg
  obtain ⟨c, hc⟩ := project_ok env.areas _ env.volume hA hA0 hh
  refine ⟨_, hc, ?_⟩
  simpa using hh

theorem solveLoop_terminates (env : DriverEnv) (hA : ∀ a ∈ env.areas, 0 < a)
    (hA0 : env.areas ≠ []) (hg : ∀ k r, env.oracle.gradient k r ≠ []) :
    ∀ fuel k (s : LoopState) (acc : RunAcc), s.psi ≠ [] →
      ∃ st k2 s2 acc2,
        solveLoop env fuel k s acc = (acc2, .ok (st, k2, s2)) ∧ k2 ≤ k + fuel := by
  intro fuel
  induction fuel with
  | zero =>
    intro k s acc _
    exact ⟨.exhausted, k, s, acc, rfl, le_refl _⟩
  | succ n ih =>
    intro k s acc hpsi
    obtain ⟨psi2, hok, hpsi2⟩ := bodyPsi_ok env k s hA hA0 hpsi (hg k s.rho)
    have hb := loopBody_ok env k s psi2 hok
    rw [solveLoop]
    simp only [hb]
    by_cases hdv : bodyObjDiff env k s psi2 < 0
    · rw [if_pos hdv]
      exact ⟨.diverged, k + 1, _, _, rfl, by omega⟩
    · rw [if_neg hdv]
      by_cases hcv : bodyDiff env s psi2 < min (step_size k * ntol) itol
      · rw [if_pos hcv]
        exact ⟨.converged, k + 1, _, _, rfl, by omega⟩
      · rw [if_neg hcv]
        obtain ⟨st, k2, s2, acc2, hloop, hk2⟩ := ih (k + 1)
          ⟨psi2, bodyRho psi2, bodyObj env k psi2, some (bodyDiff env s psi2),
            some (bodyObjDiff env k s psi2)⟩ _ hpsi2
        exact ⟨st, k2, s2, acc2, hloop, by omega⟩

theorem newtonSteps_le (e : NewtonEnv) : ∀ fuel c, newtonSteps e fuel c ≤ fuel := by
  intro fuel
  induction fuel with
  | zero => intro c; rw [newtonSteps]
  | succ n ih =>
    intro c
    rw [newtonSteps]
    by_cases hd : newtonDeriv e c = 0
    · rw [if_pos hd]; omega
    · rw [if_neg hd]
      by_cases hs : |newtonError e c / newtonDeriv e c| < 1e-12
      · rw [if_pos hs]; omega
      · rw [if_neg hs]
        have := ih (c - newtonError e c / newtonDeriv e c)
        omega

/-- C6: for every run over a real mesh (nonempty cells of positive area, and
gradient fields of matching nonempty shape), the driver reaches one of the
terminal outcomes converged, diverged or exhausted within the budget of 500
outer iterations (it cannot loop indefinitely), and each embedded projection
performs at most 10 Newton iterations. -/
theorem C6_termination (env : DriverEnv) (hA : ∀ a ∈ env.areas, 0 < a)
    (hA0 : env.areas ≠ []) (hn : 0 < env.n)
    (hg : ∀ k r, env.oracle.gradient k r ≠ []) :
    (∃ res, solve env = .ok res ∧
      (res.status = .converged ∨ res.status = .diverged ∨ res.status = .exhausted) ∧
      res.exitK ≤ 500) ∧
    (∀ (e : NewtonEnv) (c : ℝ), newtonSteps e 10 c ≤ 10) := by
  refine ⟨?_, fun e c => newtonSteps_le e 10 c⟩
  have hpsi : (initState env).psi ≠ [] := by
    unfold initState
    simp only [ne_eq, List.map_eq_nil_iff, List.replicate_eq_nil_iff]
    omega
  obtain ⟨st, k2, s2, acc2, hloop, hk2⟩ :=
    solveLoop_terminates env hA hA0 hg 500 0 (initState env)
      ⟨[], [List.replicate env.n env.fraction]⟩ hpsi
  refine ⟨finalize acc2 st k2 s2, ?_, ?_, hk2⟩
  · unfold solve solveRaw
    rw [hloop]
  · cases st
    · exact Or.inl rfl
    · exact Or.inr (Or.inl rfl)
    · exact Or.inr (Or.inr rfl)

/-! ## Density range (C8) -/

theorem solveLoop_trace_pred (env : DriverEnv) (P : List ℝ → Prop)
    (hP : ∀ psi2, P (bodyRho psi2)) :
    ∀ fuel k (s : LoopState) (acc : RunAcc), (∀ r ∈ acc.trace, P r) →
      ∀ r ∈ (solveLoop env fuel k s acc).1.trace, P r := by
  intro fuel
  induction fuel with
  | zero => intro k s acc hacc; exact hacc
  | succ n ih =>
    intro k s acc hacc
    have hacc1 : ∀ r ∈ (if k % 10 = 0 then
        RunAcc.mk (acc.snapshots ++ [⟨s.rho, s.objective, k⟩]) acc.trace
      else acc).trace, P r := by
      by_cases h10 : k % 10 = 0
      · rw [if_pos h10]; exact hacc
      · rw [if_neg h10]; exact hacc
    rw [solveLoop]
    cases hok : bodyPsi env k s with
    | error e =>
      rw [loopBody_err env k s e hok]
      exact hacc1
    | ok psi2 =>
      rw [loopBody_ok env k s psi2 hok]
      have happ : ∀ (l : List (List ℝ)), (∀ r ∈ l, P r) →
          ∀ r ∈ l ++ [bodyRho psi2], P r := by
        intro l hl r hr
        rcases List.mem_append.mp hr with h | h
        · exact hl r h
        · rw [List.mem_singleton.mp h]; exact hP psi2
      by_cases hdv : bodyObjDiff env k s psi2 < 0
      · rw [if_pos hdv]
        exact happ _ hacc1
      · rw [if_neg hdv]
        by_cases hcv : bodyDiff env s psi2 < min (step_size k * ntol) itol
        · rw [if_pos hcv]
          exact happ _ hacc1
        · rw [if_neg hcv]
          exact ih (k + 1) _ _ (happ _ hacc1)

/-- C8: with a volume fraction strictly between 0 and 1, every density field
held by the solver over the whole run — the initial uniform one and the one
produced by every iteration's update — has all its values strictly inside
(0, 1), because every update maps the latent field through the sigmoid. -/
theorem C8_density_range (env : DriverEnv) (h0 : 0 < env.fraction)
    (h1 : env.fraction < 1) :
    ∀ rho ∈ (solveRaw env).1.trace, ∀ v ∈ rho, 0 < v ∧ v < 1 := by
  unfold solveRaw
  refine solveLoop_trace_pred env (fun r => ∀ v ∈ r, 0 < v ∧ v < 1) ?_ 500 0 _ _ ?_
  · intro psi2 v hv
    obtain ⟨x, _, hx⟩ := List.mem_map.mp hv
    rw [← hx]
    exact ⟨expit_pos x, expit_lt_one x⟩
  · intro r hr v hv
    rw [List.mem_singleton.mp hr] at hv
    rw [List.eq_of_mem_replicate hv]
    exact ⟨h0, h1⟩

/-! ## Newton-cap shortfall (C5) -/

theorem newtonLoop_runs (e : NewtonEnv) :
    ∀ fuel m,
      (∀ i, m ≤ i → i < m + fuel →
        newtonDeriv e (newtonIter e i) ≠ 0 ∧
        1e-12 ≤ |newtonError e (newtonIter e i) / newtonDeriv e (newtonIter e i)|) →
      newtonLoop e fuel (newtonIter e m) = .ok (newtonIter e (m + fuel)) := by
  intro fuel
  induction fuel with
  | zero => intro m _; rfl
  | succ n ih =>
    intro m h
    obtain ⟨hd, hs⟩ := h m le_rfl (by omega)
    have hns : ¬ |newtonError e (newtonIter e m) / newtonDeriv e (newtonIter e m)|
        < 1e-12 := not_lt.mpr hs
    rw [newtonLoop]
    simp only [if_neg hd, if_neg hns]
    have hrec := ih (m + 1) (fun i h1 h2 => h i (by omega) (by omega))
    have hnext : newtonIter e m -
        newtonError e (newtonIter e m) / newtonDeriv e (newtonIter e m) =
        newtonIter e (m + 1) := rfl
    rw [hnext, hrec]
    have : m + 1 + n = m + (n + 1) := by omega
    rw [this]

/-- C5: if all 10 Newton iterates of a projection have a nonzero derivative
and an update magnitude never dropping below `1e-12`, the projector runs its
full cap, returns `half_step` plus the last shift found (with only a printed
warning), and raises no exception. -/
theorem C5_cap_shortfall (e : NewtonEnv)
    (h : ∀ i < 10, newtonDeriv e (newtonIter e i) ≠ 0 ∧
      1e-12 ≤ |newtonError e (newtonIter e i) / newtonDeriv e (newtonIter e i)|) :
    project e.areas e.half_step e.volume =
      .ok (e.half_step.map (fun x => x + newtonIter e 10)) := by
  have hrun := newtonLoop_runs e 10 0 (fun i h1 h2 => h i (by omega))
  unfold project
  have he : (⟨e.areas, e.half_step, e.volume⟩ : NewtonEnv) = e := rfl
  rw [he]
  have h0 : newtonIter e 0 = 0 := rfl
  rw [h0] at hrun
  rw [hrun]
  rfl

/-- Single-cell instance of area 1 with constant latent field `-3` and target
volume `1/2`, on which the projector's Newton iteration oscillates and
exhausts its cap. -/
noncomputable def nE5 : NewtonEnv := ⟨[1], [-3], 1 / 2⟩

theorem nE5_error (c : ℝ) : newtonError nE5 c = expit (c - 3) - 1 / 2 := by
  unfold newtonError integ nE5
  simp only [List.map_cons, List.map_nil, List.zipWith_cons_cons,
    List.zipWith_nil_right, List.sum_cons, List.sum_nil, one_mul, add_zero]
  rw [show (-3 : ℝ) + c = c - 3 by ring]

theorem nE5_deriv (c : ℝ) : newtonDeriv nE5 c = expit_diff (c - 3) := by
  unfold newtonDeriv integ nE5
  simp only [List.map_cons, List.map_nil, List.zipWith_cons_cons,
    List.zipWith_nil_right, List.sum_cons, List.sum_nil, one_mul, add_zero]
  rw [show (-3 : ℝ) + c = c - 3 by ring]

/-- The Newton update of the single-cell half-volume problem is exactly the
hyperbolic sine of the current latent value. -/
theorem expit_newton_step (y : ℝ) :
    (expit y - 1 / 2) / expit_diff y = Real.sinh y := by
  have hE : 0 < Real.exp y := Real.exp_pos y
  have hne : Real.exp y ≠ 0 := ne_of_gt hE
  have hne1 : Real.exp y + 1 ≠ 0 := by positivity
  have h1 : expit y = Real.exp y / (Real.exp y + 1) := by
    unfold expit
    rw [Real.exp_neg]
    rw [div_eq_div_iff (by positivity) hne1]
    field_simp
  have h2 : expit_diff y = Real.exp y / (Real.exp y + 1) ^ 2 := by
    unfold expit_diff
    rw [h1]
    field_simp
    ring
  rw [h1, h2, Real.sinh_eq, Real.exp_neg]
  field_simp
  ring

theorem nE5_iter_rec (i : ℕ) :
    newtonIter nE5 (i + 1) =
      newtonIter nE5 i - Real.sinh (newtonIter nE5 i - 3) := by
  rw [newtonIter, nE5_error, nE5_deriv, expit_newton_step]

theorem exp_three_ge : (20 : ℝ) ≤ Real.exp 3 := by
  have h3 : Real.exp 3 = Real.exp 1 * Real.exp 1 * Real.exp 1 := by
    rw [← Real.exp_add, ← Real.exp_add]
    norm_num
  have hx := Real.exp_one_gt_d9
  nlinarith [Real.exp_pos 1]

theorem sinh_ge_three_mul (y : ℝ) (hy : 3 ≤ y) : 3 * y ≤ Real.sinh y := by
  rw [Real.sinh_eq]
  have h1 : Real.exp (-y) ≤ 1 := by
    rw [show (1 : ℝ) = Real.exp 0 by rw [Real.exp_zero]]
    exact Real.exp_le_exp.mpr (by linarith)
  have h2 : Real.exp 3 * Real.exp (y - 3) = Real.exp y := by
    rw [← Real.exp_add]
    ring_nf
  have h3 : y - 3 + 1 ≤ Real.exp (y - 3) := Real.add_one_le_exp _
  have h6 : 20 * (y - 2) ≤ Real.exp y := by
    rw [← h2]
    have := mul_le_mul exp_three_ge (by linarith : y - 2 ≤ Real.exp (y - 3))
      (by linarith) (by positivity)
    linarith
  linarith

theorem nE5_invariant : ∀ i, 3 ≤ |newtonIter nE5 i - 3| := by
  intro i
  induction i with
  | zero =>
    have h : newtonIter nE5 0 = 0 := rfl
    rw [h]
    norm_num
  | succ n ih =>
    rw [nE5_iter_rec]
    have hgoal : newtonIter nE5 n - Real.sinh (newtonIter nE5 n - 3) - 3 =
        (newtonIter nE5 n - 3) - Real.sinh (newtonIter nE5 n - 3) := by ring
    rw [hgoal]
    set z := newtonIter nE5 n - 3 with hz
    rcases le_or_lt 0 z with hpos | hneg
    · have hz3 : 3 ≤ z := by rwa [abs_of_nonneg hpos] at ih
      have hs := sinh_ge_three_mul z hz3
      rw [abs_of_nonpos (by linarith)]
      linarith
    · have hz3 : 3 ≤ -z := by rwa [abs_of_neg hneg] at ih
      have hs := sinh_ge_three_mul (-z) hz3
      have hodd : Real.sinh (-z) = -Real.sinh z := Real.sinh_neg z
      rw [abs_of_nonneg (by linarith)]
      linarith

theorem C5_witness :
    project [1] [-3] (1 / 2) =
      .ok (([-3] : List ℝ).map (fun x => x + newtonIter nE5 10)) := by
  have h : ∀ i < 10, newtonDeriv nE5 (newtonIter nE5 i) ≠ 0 ∧
      1e-12 ≤ |newtonError nE5 (newtonIter nE5 i) /
        newtonDeriv nE5 (newtonIter nE5 i)| := by
    intro i _
    refine ⟨by rw [nE5_deriv]; exact ne_of_gt (expit_diff_pos _), ?_⟩
    rw [nE5_error, nE5_deriv, expit_newton_step]
    have hinv := nE5_invariant i
    set z := newtonIter nE5 i - 3 with hz
    rcases le_or_lt 0 z with hpos | hneg
    · have hz3 : 3 ≤ z := by rwa [abs_of_nonneg hpos] at hinv
      have hs := sinh_ge_three_mul z hz3
      rw [abs_of_nonneg (by linarith)]
      linarith
    · have hz3 : 3 ≤ -z := by rwa [abs_of_neg hneg] at hinv
      have hs := sinh_ge_three_mul (-z) hz3
      have hodd : Real.sinh (-z) = -Real.sinh z := Real.sinh_neg z
      rw [abs_of_nonpos (by linarith)]
      linarith
  exact C5_cap_shortfall nE5 h

/-! ## Projection postcondition (C1) -/

theorem newtonLoop_shape (e : NewtonEnv) :
    ∀ fuel c0, newtonLoop e fuel c0 = .error zeroDerivMsg ∨
      ∃ c, newtonLoop e fuel c0 = .ok c := by
  intro fuel
  induction fuel with
  | zero => exact fun c0 => Or.inr ⟨c0, rfl⟩
  | succ n ih =>
    intro c0
    rw [newtonLoop]
    by_cases hd : newtonDeriv e c0 = 0
    · rw [if_pos hd]
      exact Or.inl rfl
    · rw [if_neg hd]
      by_cases hs : |newtonError e c0 / newtonDeriv e c0| < 1e-12
      · rw [if_pos hs]
        exact Or.inr ⟨_, rfl⟩
      · rw [if_neg hs]
        exact ih _

/-- C1 (counterexample): a single cell of area `1e30`, the zero latent field
and the target volume `5e29 - 2.25e17` (strictly between 0 and the domain
area) make the Newton loop break at its first update (`|update| = 9e-13 <
1e-12`), yet the returned field's volume misses the target by more than
`1e-10`; so the projection postcondition claimed in the spec fails without
any degenerate-derivative error. -/
theorem C1_counterexample :
    ∃ res, project [(1e30 : ℝ)] [0] (5e29 - 2.25e17) = .ok res ∧
      (0 : ℝ) < 5e29 - 2.25e17 ∧ (5e29 - 2.25e17 : ℝ) < 1e30 ∧
      ¬ |integ [(1e30 : ℝ)] (res.map expit) - (5e29 - 2.25e17)| < 1e-10 := by
  have hErr : newtonError ⟨[(1e30 : ℝ)], [0], 5e29 - 2.25e17⟩ 0 = 2.25e17 := by
    unfold newtonError integ
    simp only [List.map_cons, List.map_nil, List.zipWith_cons_cons,
      List.zipWith_nil_right, List.sum_cons, List.sum_nil, add_zero, zero_add,
      expit_zero]
    norm_num
  have hDeriv : newtonDeriv ⟨[(1e30 : ℝ)], [0], 5e29 - 2.25e17⟩ 0 = 2.5e29 := by
    unfold newtonDeriv integ
    simp only [List.map_cons, List.map_nil, List.zipWith_cons_cons,
      List.zipWith_nil_right, List.sum_cons, List.sum_nil, add_zero, zero_add,
      expit_diff_zero]
    norm_num
  have hloop : newtonLoop ⟨[(1e30 : ℝ)], [0], 5e29 - 2.25e17⟩ 10 0 =
      .ok (-(9e-13)) := by
    have hb := newtonLoop_break ⟨[(1e30 : ℝ)], [0], 5e29 - 2.25e17⟩ 9 0
      (by rw [hDeriv]; norm_num)
      (by rw [hErr, hDeriv]; rw [abs_of_nonneg (by norm_num)]; norm_num)
    rw [hErr, hDeriv] at hb
    rw [hb]
    norm_num
  refine ⟨[(-(9e-13) : ℝ)], ?_, by norm_num, by norm_num, ?_⟩
  · unfold project
    rw [hloop]
    simp only [Except.map, List.map_cons, List.map_nil]
    norm_num
  · have hexpit : expit (-(9e-13) : ℝ) = 1 / (1 + Real.exp 9e-13) := by
      unfold expit
      rw [neg_neg]
    have hL : (9e-13 : ℝ) + 1 ≤ Real.exp 9e-13 := Real.add_one_le_exp _
    have hU : Real.exp (9e-13 : ℝ) ≤
        1 + 9e-13 + (9e-13) ^ 2 / 2 + (9e-13) ^ 3 * 4 / (6 * 3) := by
      have h := Real.exp_bound' (x := (9e-13 : ℝ)) (by norm_num) (by norm_num)
        (n := 3) (by norm_num)
      calc Real.exp (9e-13 : ℝ) ≤
          (∑ m ∈ Finset.range 3, (9e-13 : ℝ) ^ m / m.factorial) +
            (9e-13 : ℝ) ^ 3 * (3 + 1) / ((3 : ℕ).factorial * 3) := h
        _ = 1 + 9e-13 + (9e-13) ^ 2 / 2 + (9e-13) ^ 3 * 4 / (6 * 3) := by
          rw [Finset.sum_range_succ, Finset.sum_range_succ, Finset.sum_range_succ,
            Finset.sum_range_zero]
          norm_num [Nat.factorial]
    set E := Real.exp (9e-13 : ℝ) with hE
    have h1E : (0 : ℝ) < 1 + E := by positivity
    have hcoef : (0 : ℝ) ≤ 1e-10 + 5e29 - 2.25e17 := by norm_num
    have hmul := mul_le_mul_of_nonneg_left hU hcoef
    have key : (1e-10 + 5e29 - 2.25e17) * (1 + E) ≤ 1e30 := by nlinarith
    have hdivle : 1e-10 + 5e29 - 2.25e17 ≤ 1e30 / (1 + E) :=
      (le_div_iff₀ h1E).mpr key
    have hQ : (1e-10 : ℝ) ≤
        integ [(1e30 : ℝ)] ([(-(9e-13) : ℝ)].map expit) - (5e29 - 2.25e17) := by
      unfold integ
      simp only [List.map_cons, List.map_nil, List.zipWith_cons_cons,
        List.zipWith_nil_right, List.sum_cons, List.sum_nil, add_zero]
      rw [hexpit, mul_one_div]
      linarith
    exact not_lt.mpr (le_trans hQ (le_abs_self _))

/-- C1 (amended): the projector either fails with the degenerate-derivative
error or returns `half_step` shifted by a single scalar; the returned field's
volume is not guaranteed within `1e-10` of the target (the loop's stopping
test bounds the Newton update by `1e-12`, not the volume residual, and the
cap-exhausted path returns regardless). -/
theorem C1_amended_projection (areas half_step : List ℝ) (volume : ℝ) :
    project areas half_step volume = .error zeroDerivMsg ∨
    ∃ c, project areas half_step volume = .ok (half_step.map (fun x => x + c)) := by
  rcases newtonLoop_shape ⟨areas, half_step, volume⟩ 10 0 with h | ⟨c, h⟩
  · left
    unfold project
    rw [h]
    rfl
  · right
    exact ⟨c, by unfold project; rw [h]; rfl⟩

/-! ## Parser rejections (C9) -/

theorem parseFlows_sum (l : List FlowSpec) :
    ∀ flows, parseFlows l = .ok flows → totalFlow flows = netFlow ⟨"", "", 0, 0, 0, l, [], [], none, none, [], []⟩ := by
  induction l with
  | nil =>
    intro flows h
    have he : flows = ([] : List Flow) := (Except.ok.inj h).symm
    rw [he]
    rfl
  | cons a l ih =>
    intro flows h
    rw [parseFlows] at h
    cases hs : sideFromString a.side with
    | error e =>
      rw [hs] at h
      exact Except.noConfusion h
    | ok sd =>
      rw [hs] at h
      cases hl : parseFlows l with
      | error e =>
        rw [hl] at h
        exact Except.noConfusion h
      | ok fl =>
        rw [hl] at h
        have he : flows = Flow.mk sd a.center a.flowLength a.rate :: fl :=
          (Except.ok.inj h).symm
        rw [he]
        unfold totalFlow netFlow at ih ⊢
        rw [List.map_cons, List.sum_cons, List.map_cons, List.sum_cons, ih fl hl]

theorem getFluidArguments_flows_err (d : DesignSpec) (e : String)
    (hf : parseFlows d.flows = .error e) : getFluidArguments d = .error e := by
  unfold getFluidArguments
  rw [hf]

theorem getFluidArguments_flows_ok (d : DesignSpec) (flows : List Flow)
    (hf : parseFlows d.flows = .ok flows) :
    getFluidArguments d =
      if d.zero_pressure.length = 0 ∧ 1e-14 < |totalFlow flows| then
        .error badFlowMsg
      else
        match parseOptSides d.no_slip with
        | .error e => .error e
        | .ok ns =>
          match parseOptSides d.zero_pressure with
          | .error e => .error e
          | .ok zp =>
            match d.max_region with
            | some r => .ok ⟨flows, ns, zp, some r⟩
            | none =>
              if d.objective = "maximize_flow" then .error noMaxRegionMsg
              else .ok ⟨flows, ns, zp, none⟩ := by
  unfold getFluidArguments
  rw [hf]

/-- C9: `parse_design` rejects a design whose objective is not one of
`minimize_power`, `maximize_flow`, `minimize_compliance`; for a fluid problem
it fails when the net flow over all declared flows exceeds the `1e-14`
tolerance in absolute value while no zero-pressure boundary is declared; and
it fails on a fluid `maximize_flow` design with no max region.  In each case
it returns an error, so the run never proceeds to optimization. -/
theorem C9_parser_rejections (d : DesignSpec) :
    (d.objective ∉ legalObjectives → parseDesign d = .error badObjectiveMsg) ∧
    (d.problem ≠ "elasticity" → d.zero_pressure = [] → 1e-14 < |netFlow d| →
      ∃ e, parseDesign d = .error e) ∧
    (d.problem ≠ "elasticity" → d.objective = "maximize_flow" →
      d.max_region = none → ∃ e, parseDesign d = .error e) := by
  have hlift : ∀ e, d.objective ∈ legalObjectives → d.problem ≠ "elasticity" →
      getFluidArguments d = .error e → parseDesign d = .error e := by
    intro e hin hprob hga
    unfold parseDesign
    rw [if_pos hin, if_neg hprob, hga]
    rfl
  refine ⟨?_, ?_, ?_⟩
  · intro hobj
    unfold parseDesign
    rw [if_neg hobj]
  · intro hprob hzp hnet
    by_cases hobj : d.objective ∈ legalObjectives
    · suffices hga : ∃ e, getFluidArguments d = .error e by
        obtain ⟨e, he⟩ := hga
        exact ⟨e, hlift e hobj hprob he⟩
      cases hf : parseFlows d.flows with
      | error e => exact ⟨e, getFluidArguments_flows_err d e hf⟩
      | ok flows =>
        have htot : totalFlow flows = netFlow d := by
          rw [parseFlows_sum d.flows flows hf]
          unfold netFlow
          rfl
        have hcond : d.zero_pressure.length = 0 ∧ 1e-14 < |totalFlow flows| := by
          refine ⟨by rw [hzp]; rfl, by rw [htot]; exact hnet⟩
        refine ⟨badFlowMsg, ?_⟩
        rw [getFluidArguments_flows_ok d flows hf, if_pos hcond]
    · exact ⟨badObjectiveMsg, by unfold parseDesign; rw [if_neg hobj]⟩
  · intro hprob hobj hmr
    have hin : d.objective ∈ legalObjectives := by
      rw [hobj]
      simp [legalObjectives]
    suffices hga : ∃ e, getFluidArguments d = .error e by
      obtain ⟨e, he⟩ := hga
      exact ⟨e, hlift e hin hprob he⟩
    cases hf : parseFlows d.flows with
    | error e => exact ⟨e, getFluidArguments_flows_err d e hf⟩
    | ok flows =>
      rw [getFluidArguments_flows_ok d flows hf]
      by_cases hcond : d.zero_pressure.length = 0 ∧ 1e-14 < |totalFlow flows|
      · rw [if_pos hcond]
        exact ⟨badFlowMsg, rfl⟩
      · rw [if_neg hcond]
        cases hns : parseOptSides d.no_slip with
        | error e => exact ⟨e, rfl⟩
        | ok ns =>
          cases hzp2 : parseOptSides d.zero_pressure with
          | error e => exact ⟨e, rfl⟩
          | ok zp =>
            rw [hmr]
            refine ⟨noMaxRegionMsg, ?_⟩
            show (if d.objective = "maximize_flow" then
                (Except.error noMaxRegionMsg : Except String FluidArgs)
              else .ok ⟨flows, ns, zp, none⟩) = .error noMaxRegionMsg
            rw [if_pos hobj]

/-! ## Concrete test instances -/

/-- One-cell unit-square instance, volume fraction `1/2`, constant objective
`5`, zero gradient. -/
noncomputable def envC : DriverEnv :=
  ⟨[1], 1, 1 / 2, 1, 1, ⟨fun _ _ => 5, fun _ _ => [0]⟩⟩

/-- One-cell unit-square instance whose objective oracle answers the call
index, so every step increases the objective by one. -/
noncomputable def envD : DriverEnv :=
  ⟨[1], 1, 1 / 2, 1, 1, ⟨fun i _ => (i : ℝ), fun _ _ => [0]⟩⟩

/-- Degenerate instance whose single mesh cell has zero area. -/
noncomputable def envZ : DriverEnv :=
  ⟨[0], 1, 1 / 2, 1, 1, ⟨fun _ _ => 0, fun _ _ => [0]⟩⟩

theorem project_unit_half : project [(1 : ℝ)] [0] (1 / 2) = .ok [0] := by
  have herr : newtonError ⟨[(1 : ℝ)], [0], 1 / 2⟩ 0 = 0 := by
    unfold newtonError integ
    simp [expit_zero]
  have hder : newtonDeriv ⟨[(1 : ℝ)], [0], 1 / 2⟩ 0 = 1 / 4 := by
    unfold newtonDeriv integ
    simp [expit_diff_zero]
  have hb := newtonLoop_break ⟨[(1 : ℝ)], [0], 1 / 2⟩ 9 0
    (by rw [hder]; norm_num) (by rw [herr, hder]; norm_num)
  rw [herr, hder] at hb
  have hc : (0 : ℝ) - 0 / (1 / 4) = 0 := by norm_num
  rw [hc] at hb
  unfold project
  rw [hb]
  simp [Except.map]

theorem bodyPsi_unitcell (env : DriverEnv) (s : LoopState)
    (hA : env.areas = [1]) (hpsi : s.psi = [0])
    (hg : env.oracle.gradient 0 s.rho = [0])
    (hv : DriverEnv.volume env = 1 / 2) :
    bodyPsi env 0 s = .ok [0] := by
  unfold bodyPsi stepFn
  rw [hA, hpsi, hg, hv]
  have hzip : List.zipWith (fun p g => p - step_size 0 * g) [(0 : ℝ)] [0] = [0] := by
    simp
  rw [hzip]
  exact project_unit_half

/-! ## Witnesses -/

theorem C2_witness :
    ∃ s2, loopBody envC 0 ⟨[0], [1 / 2], 5, none, none⟩ =
      .ok (.stop .converged s2) := by
  have hok : bodyPsi envC 0 ⟨[0], [1 / 2], 5, none, none⟩ = .ok [0] :=
    bodyPsi_unitcell envC _ rfl rfl rfl (by unfold DriverEnv.volume envC; norm_num)
  have hnd : 0 ≤ bodyObjDiff envC 0 ⟨[0], [1 / 2], 5, none, none⟩ [0] := by
    unfold bodyObjDiff bodyObj envC
    norm_num
  refine (C2_convergence_rule envC 0 _ [0] hok hnd).mpr ?_
  have hdiff : bodyDiff envC ⟨[0], [1 / 2], 5, none, none⟩ [0] = 0 := by
    unfold bodyDiff bodyRho integ envC
    simp
  rw [hdiff]
  have h0 : step_size 0 = 25 := by norm_num [step_size]
  rw [h0]
  norm_num [lt_min_iff]

theorem C10_witness :
    loopBody envD 0 ⟨[0], [1 / 2], 0, none, none⟩ =
      .ok (.stop .diverged ⟨[0], bodyRho [0], bodyObj envD 0 [0], none,
        some (bodyObjDiff envD 0 ⟨[0], [1 / 2], 0, none, none⟩ [0])⟩) ∧
    (0 : ℝ) < bodyObj envD 0 [0] := by
  have hok : bodyPsi envD 0 ⟨[0], [1 / 2], 0, none, none⟩ = .ok [0] :=
    bodyPsi_unitcell envD _ rfl rfl rfl (by unfold DriverEnv.volume envD; norm_num)
  have hdiv : bodyObjDiff envD 0 ⟨[0], [1 / 2], 0, none, none⟩ [0] < 0 := by
    unfold bodyObjDiff bodyObj bodyRho envD
    norm_num
  exact C10_no_rollback envD 0 _ [0] hok hdiv

theorem C3_witness :
    ∃ acc2 s2,
      solveLoop envD 500 0 ⟨[0], [1 / 2], 0, none, none⟩ ⟨[], []⟩ =
        (acc2, .ok (.diverged, 1, s2)) ∧
      s2.rho = bodyRho [0] ∧ s2.objective = bodyObj envD 0 [0] ∧
      (finalize acc2 .diverged 1 s2).snapshots.getLast? =
        some ⟨bodyRho [0], bodyObj envD 0 [0], 1⟩ := by
  have hok : bodyPsi envD 0 ⟨[0], [1 / 2], 0, none, none⟩ = .ok [0] :=
    bodyPsi_unitcell envD _ rfl rfl rfl (by unfold DriverEnv.volume envD; norm_num)
  have hdiv : bodyObjDiff envD 0 ⟨[0], [1 / 2], 0, none, none⟩ [0] < 0 := by
    unfold bodyObjDiff bodyObj bodyRho envD
    norm_num
  exact C3_divergence_terminal envD 499 0 _ _ [0] hok hdiv

theorem C4_witness :
    newtonLoop ⟨[0], [0], 1⟩ 7 0 = .error zeroDerivMsg ∧
    project [0] [0] 1 = .error zeroDerivMsg ∧
    (solveLoop envZ 500 0 (initState envZ) ⟨[], []⟩).2 = .error zeroDerivMsg := by
  obtain ⟨h1, h2, h3⟩ := C4_degenerate_derivative
  have hd : ∀ (hs : List ℝ) (V c : ℝ), newtonDeriv ⟨[0], hs, V⟩ c = 0 := by
    intro hs V c
    unfold newtonDeriv integ
    cases hs with
    | nil => simp
    | cons a rest => simp
  refine ⟨h1 ⟨[0], [0], 1⟩ 6 0 (hd [0] 1 0), h2 [0] [0] 1 (hd [0] 1 0), ?_⟩
  apply h3
  apply loopBody_err
  unfold bodyPsi stepFn
  exact h2 _ _ _ (hd _ _ 0)

theorem C6_witness :
    (∃ res, solve envC = .ok res ∧
      (res.status = .converged ∨ res.status = .diverged ∨ res.status = .exhausted) ∧
      res.exitK ≤ 500) ∧
    (∀ (e : NewtonEnv) (c : ℝ), newtonSteps e 10 c ≤ 10) := by
  refine C6_termination envC ?_ ?_ ?_ ?_
  · intro a ha
    have h : a = 1 := by simpa [envC] using ha
    rw [h]
    norm_num
  · simp [envC]
  · norm_num [envC]
  · intro k r
    simp [envC]

theorem solveLoop_trace_mono (env : DriverEnv) :
    ∀ fuel k (s : LoopState) (acc : RunAcc) (r : List ℝ), r ∈ acc.trace →
      r ∈ (solveLoop env fuel k s acc).1.trace := by
  intro fuel
  induction fuel with
  | zero => exact fun k s acc r hr => hr
  | succ n ih =>
    intro k s acc r hr
    have hr1 : r ∈ (if k % 10 = 0 then
        RunAcc.mk (acc.snapshots ++ [⟨s.rho, s.objective, k⟩]) acc.trace
      else acc).trace := by
      by_cases h10 : k % 10 = 0
      · rw [if_pos h10]; exact hr
      · rw [if_neg h10]; exact hr
    rw [solveLoop]
    cases hok : bodyPsi env k s with
    | error e =>
      rw [loopBody_err env k s e hok]
      exact hr1
    | ok psi2 =>
      rw [loopBody_ok env k s psi2 hok]
      by_cases hdv : bodyObjDiff env k s psi2 < 0
      · rw [if_pos hdv]
        exact List.mem_append_left _ hr1
      · rw [if_neg hdv]
        by_cases hcv : bodyDiff env s psi2 < min (step_size k * ntol) itol
        · rw [if_pos hcv]
          exact List.mem_append_left _ hr1
        · rw [if_neg hcv]
          exact ih (k + 1) _ _ r (List.mem_append_left _ hr1)

theorem C8_witness :
    [(1 : ℝ) / 2] ∈ (solveRaw envC).1.trace ∧
      ((0 : ℝ) < 1 / 2 ∧ (1 / 2 : ℝ) < 1) := by
  have hmem : [(1 : ℝ) / 2] ∈ (solveRaw envC).1.trace := by
    unfold solveRaw
    apply solveLoop_trace_mono
    simp [envC]
  exact ⟨hmem, C8_density_range envC (by norm_num [envC]) (by norm_num [envC])
    [(1 : ℝ) / 2] hmem (1 / 2) (by simp)⟩

/-- Designs exercising the three parser rejections. -/
noncomputable def dBadObj : DesignSpec :=
  ⟨"fluid", "minimise_power", 1, 1, 1 / 2, [], [], [], none, none, [], []⟩

noncomputable def dBadFlow : DesignSpec :=
  ⟨"fluid", "minimize_power", 1, 1, 1 / 2, [⟨"left", 0, 1, 1⟩], [], [], none,
    none, [], []⟩

noncomputable def dNoRegion : DesignSpec :=
  ⟨"fluid", "maximize_flow", 1, 1, 1 / 2, [], [], [], none, none, [], []⟩

theorem C9_witness :
    parseDesign dBadObj = .error badObjectiveMsg ∧
    (∃ e, parseDesign dBadFlow = .error e) ∧
    (∃ e, parseDesign dNoRegion = .error e) := by
  refine ⟨(C9_parser_rejections dBadObj).1 ?_,
    (C9_parser_rejections dBadFlow).2.1 ?_ rfl ?_,
    (C9_parser_rejections dNoRegion).2.2 ?_ rfl rfl⟩
  · simp [dBadObj, legalObjectives]
  · simp [dBadFlow]
  · unfold netFlow dBadFlow
    norm_num
  · simp [dNoRegion]

end Topomax
